import Mathlib

/-!
Verification of the railway-station booking core.

This file gives a shallow embedding of the seat-inventory, fare, order and
trip-scheduling logic of the repository (Django models, serializers and
services under `station/` and `booking/`) and proves the specification
claims about it.

Modelling conventions:
* Python `Decimal` values are embedded as exact rationals (`ℚ`); `Decimal`
  addition, subtraction and multiplication are exact, so this is faithful.
* datetimes are minutes on an integer time line; `.date()` is the floor
  of a datetime to its 1440-minute day.
* Django rows are Lean structures; a foreign key is embedded as the
  referenced row itself, and row identity (what Django's `filter(trip=...)`
  compares) is the `id` field.  The wagon's `WagonType` foreign key is
  named `type` in `station/models.py` and accessed as `wagon_type`
  elsewhere in the repository; both denote the same column, embedded here
  as the field `type`.
* a Django queryset over a table is a Lean `List` of rows; `filter` is
  `List.filter` and the `unique_together` constraint is enforced by the
  insert operation on the ticket table.
* raising a `ValidationError` inside `transaction.atomic` aborts the
  transaction with no change to the store; this is embedded as functions
  returning `Except`, where an `error` result leaves the caller's store
  untouched.
-/

namespace Railway

/-- Wagon type (class) row: `station.models.WagonType`. -/
structure WagonType where
  id : Nat
  name : String
  fare_multiplier : ℚ
deriving DecidableEq

/-- Wagon row: `station.models.Wagon`.  `type` is the `WagonType` foreign
key, `trainId` the `Train` foreign key. -/
structure Wagon where
  id : Nat
  trainId : Nat
  number : Nat
  type : WagonType
  seats : Nat
deriving DecidableEq

/-- Trip row: `station.models.Trip`.  Times are minutes on an integer
time line; `base_price` is a `Decimal`, embedded as `ℚ`. -/
structure Trip where
  id : Nat
  trainId : Nat
  departure_time : Int
  arrival_time : Int
  base_price : ℚ
deriving DecidableEq

/-- Passenger type row: `booking.models.PassengerType`. -/
structure PassengerType where
  id : Nat
  code : String
  discount_percent : Nat
  requires_document : Bool
  is_active : Bool
deriving DecidableEq

/-- Order status choices: `booking.models.Order.Status`. -/
inductive OrderStatus where
  | pending
  | paid
  | cancelled
deriving DecidableEq

/-- Order row: `booking.models.Order`. -/
structure Order where
  id : Nat
  userId : Nat
  status : OrderStatus
deriving DecidableEq

/-- Ticket row: `booking.models.Ticket`. -/
structure Ticket where
  trip : Trip
  wagon : Wagon
  seat_number : Nat
  orderId : Nat
  passenger_type : PassengerType
  price : ℚ
  passenger_name : String
  passenger_document : String
deriving DecidableEq

/-- Authenticated principal supplied by the identity collaborator. -/
structure User where
  id : Nat
  is_staff : Bool
deriving DecidableEq

/-- Projection of a datetime (minutes) to its calendar day: `.date()`. -/
def dateOf (t : Int) : Int := t / 1440

/-! ## Fare Calculator -/

/-- Fueled count of base-10 digits of a natural number. -/
def digitsAux : Nat → Nat → Nat
  | 0, _ => 0
  | fuel + 1, n => if n < 10 then 1 else digitsAux fuel (n / 10) + 1

/-- Number of decimal digits of `n` (for `n ≥ 1`). -/
def numDigits (n : Nat) : Nat := digitsAux n n

/-- Value of the Python expression `Decimal(f"0.{d}")`: the decimal digits
of `d` placed directly after the decimal point, i.e. `d / 10 ^ digits d`.
This is `d / 100` only when `d` has exactly two digits. -/
def decimalPointFrac (d : Nat) : ℚ := (d : ℚ) / (10 : ℚ) ^ numDigits d

/-- Ticket price as computed by `booking.models.Ticket.compute_price`:
`base = trip.base_price * wagon.type.fare_multiplier`, discounted by
`Decimal(f"0.{discount_percent}")` when the discount is positive. -/
def compute_price (trip : Trip) (wagon : Wagon) (pt : PassengerType) : ℚ :=
  let base := trip.base_price * wagon.type.fare_multiplier
  if 0 < pt.discount_percent then
    base * (1 - decimalPointFrac pt.discount_percent)
  else
    base

/-- Rounding to 2 decimal places, half away from zero on the half
(currency half-up convention, for nonnegative amounts). -/
def roundHalfUp2 (q : ℚ) : ℚ := ((⌊q * 100 + 1 / 2⌋ : ℤ) : ℚ) / 100

/-- Ticket price as the specification states it (spec section 4.2):
`trip.base_price * fare_multiplier * (1 - discount_percent / 100)`,
rounded to 2 decimal places half-up.  Stated from the spec's words for
comparison with `compute_price`, which is translated from the source. -/
def spec_fare_price (trip : Trip) (wagon : Wagon) (pt : PassengerType) : ℚ :=
  roundHalfUp2
    (trip.base_price * wagon.type.fare_multiplier *
      (1 - (pt.discount_percent : ℚ) / 100))

/-- Price computed by `OrderCreateSerializer.create` before the ticket is
saved: special-cases passenger-type codes `child` and `infant`.  (This
value is discarded by `Ticket.save`, see `ticket_save`.) -/
def serializer_price (trip : Trip) (wagon : Wagon) (pt : PassengerType) : ℚ :=
  let base := trip.base_price * wagon.type.fare_multiplier
  if pt.code = "child" then base * (1 / 2)
  else if pt.code = "infant" then 0
  else base

/-- Embedding of `booking.models.Ticket.save`: unconditionally overwrites
the `price` field with `compute_price` before persisting. -/
def ticket_save (t : Ticket) : Ticket :=
  { t with price := compute_price t.trip t.wagon t.passenger_type }

/-! ## Seat Inventory Engine: reservation check and ticket store -/

/-- Error taxonomy of order creation (spec section 7). -/
inductive BookingError where
  | EmptyOrder
  | SeatConflict
  | FieldsRequired
  | WagonTripMismatch
  | InvalidSeat
  | MissingDocument
deriving DecidableEq

/-- Seat triple of a ticket: the key of the `unique_together` constraint
`["trip", "wagon", "seat_number"]` on `booking.models.Ticket`. -/
def seatTriple (t : Ticket) : Nat × Nat × Nat :=
  (t.trip.id, t.wagon.id, t.seat_number)

/-- Insert of one ticket row into the ticket table under the storage
layer's `unique_together` constraint: fails if a row with the same
(trip, wagon, seat_number) triple already exists. -/
def insertTicket (tickets : List Ticket) (t : Ticket) :
    Except BookingError (List Ticket) :=
  if tickets.any (fun u => seatTriple u = seatTriple t) then
    .error .SeatConflict
  else
    .ok (tickets ++ [t])

/-- Sequential insert of a batch of tickets (the per-ticket loop of order
creation); each insert sees the rows inserted before it. -/
def insertTickets (tickets : List Ticket) :
    List Ticket → Except BookingError (List Ticket)
  | [] => .ok tickets
  | t :: ts =>
    match insertTicket tickets t with
    | .error e => .error e
    | .ok tickets' => insertTickets tickets' ts

/-- One entry of the `tickets` list posted to `POST /orders`
(`TicketSerializer` fields; foreign keys already resolved to rows). -/
structure TicketReq where
  trip : Trip
  wagon : Wagon
  seat_number : Nat
  passenger_type : PassengerType
  passenger_name : String
  passenger_document : String
deriving DecidableEq

/-- Embedding of one ticket's request validation: the serializer's
`UniqueTogetherValidator` over the current ticket table, then
`TicketSerializer.validate` (required-fields truthiness check, wagon/train
match, seat range, document requirement), in the order DRF runs them.
Returns the first error, or `none` when the request is acceptable. -/
def validateTicketReq (tickets : List Ticket) (r : TicketReq) :
    Option BookingError :=
  if tickets.any (fun u =>
      u.trip.id = r.trip.id ∧ u.wagon.id = r.wagon.id ∧
      u.seat_number = r.seat_number) then
    some .SeatConflict
  else if r.seat_number = 0 then
    -- `if not trip or not wagon or not seat_number`: a seat number of 0 is
    -- falsy in Python, so it trips the required-fields check.
    some .FieldsRequired
  else if r.wagon.trainId ≠ r.trip.trainId then
    some .WagonTripMismatch
  else if r.seat_number = 0 ∨ r.wagon.seats < r.seat_number then
    some .InvalidSeat
  else if r.passenger_type.requires_document ∧ r.passenger_document = "" then
    some .MissingDocument
  else
    none

/-- The persistent store the order operations touch: the order table and
the ticket table.  (Catalog tables are reference data passed separately.) -/
structure DB where
  orders : List Order
  tickets : List Ticket
deriving DecidableEq

/-- Fresh primary key for a new order row. -/
def nextOrderId (db : DB) : Nat :=
  (db.orders.map (fun o => o.id)).foldr max 0 + 1

/-- Ticket row built by `Ticket.objects.create(order=order, price=price,
**ticket_data)` inside `OrderCreateSerializer.create`: the serializer's
special-cased price is passed in, and `Ticket.save` then overwrites it
with `compute_price`. -/
def mkTicket (orderId : Nat) (r : TicketReq) : Ticket :=
  ticket_save
    { trip := r.trip
      wagon := r.wagon
      seat_number := r.seat_number
      orderId := orderId
      passenger_type := r.passenger_type
      price := serializer_price r.trip r.wagon r.passenger_type
      passenger_name := r.passenger_name
      passenger_document := r.passenger_document }

/-- Embedding of order creation (`OrderCreateSerializer`): the empty-list
check of `validate_tickets`, per-ticket validation against the current
store, then, inside one atomic transaction, creation of a pending order
row and one ticket row per request.  An error result models the rolled
back transaction: the caller's store is unchanged. -/
def create_order (db : DB) (userId : Nat) (reqs : List TicketReq) :
    Except BookingError DB :=
  if reqs.isEmpty then
    .error .EmptyOrder
  else
    match reqs.findSome? (validateTicketReq db.tickets) with
    | some e => .error e
    | none =>
      match insertTickets db.tickets (reqs.map (mkTicket (nextOrderId db))) with
      | .error e => .error e
      | .ok ts =>
        .ok { orders := db.orders ++ [⟨nextOrderId db, userId, .pending⟩],
              tickets := ts }

/-! ## Order Service: cancellation -/

/-- Error taxonomy of `OrderService.cancel_order`. -/
inductive CancelError where
  | NotFound
  | Forbidden
  | InvalidState
  | CancellationWindowClosed
deriving DecidableEq

/-- Tickets of one order (`order.tickets.all()`). -/
def orderTickets (db : DB) (orderId : Nat) : List Ticket :=
  db.tickets.filter (fun t => t.orderId = orderId)

/-- Minutes in 24 hours: the cancellation window. -/
def cancellationWindow : Int := 24 * 60

/-- Embedding of `OrderService.cancel_order`: looks the order up, rejects
a requester who is neither staff nor the owner, rejects a non-pending
order, rejects the cancellation when any ticket's trip departs within
24 hours of `now`, and otherwise persists status `cancelled`. -/
def cancel_order (db : DB) (orderId : Nat) (user : User) (now : Int) :
    Except CancelError DB :=
  match db.orders.find? (fun o => o.id = orderId) with
  | none => .error .NotFound
  | some order =>
    if user.is_staff = false ∧ order.userId ≠ user.id then
      .error .Forbidden
    else if order.status ≠ .pending then
      .error .InvalidState
    else if (orderTickets db orderId).any
        (fun t => t.trip.departure_time ≤ now + cancellationWindow) then
      .error .CancellationWindowClosed
    else
      .ok { db with
            orders := db.orders.map (fun o =>
              if o.id = orderId then { o with status := .cancelled } else o) }

/-! ## Trip Scheduler Validator -/

/-- Error taxonomy of trip validation. -/
inductive TripError where
  | TimeOrderError
  | OverlapError
deriving DecidableEq

/-- Candidate trip as `TripCreateUpdateSerializer.validate` builds it:
`Trip(**data)` with the id set only on update. -/
structure TripCand where
  id : Option Nat
  trainId : Nat
  departure_time : Int
  arrival_time : Int
  base_price : ℚ
deriving DecidableEq

/-- Overlap condition of `Trip.clean`: an existing trip of the same train
with `departure_time < candidate.arrival_time` and
`arrival_time > candidate.departure_time`, the candidate's own row
excluded on update. -/
def overlapsCand (t : Trip) (c : TripCand) : Prop :=
  t.trainId = c.trainId ∧ t.departure_time < c.arrival_time ∧
    c.departure_time < t.arrival_time ∧ some t.id ≠ c.id

instance (t : Trip) (c : TripCand) : Decidable (overlapsCand t c) := by
  unfold overlapsCand; infer_instance

/-- Embedding of `Trip.clean`, run by `TripCreateUpdateSerializer.validate`
on every create and update before persistence: the time-order check first,
then the overlap check against the trip table. -/
def trip_validate (trips : List Trip) (c : TripCand) : Option TripError :=
  if c.arrival_time ≤ c.departure_time then
    some .TimeOrderError
  else if ∃ t ∈ trips, overlapsCand t c then
    some .OverlapError
  else
    none

/-! ## Seat Inventory Engine: availability by wagon class -/

/-- One value of the per-class dictionary built by
`Trip.get_available_seats_by_class`. -/
structure SeatInfo where
  total_seats : Nat
  booked_seats : Nat
  available_seats : Int
  fare_multiplier : ℚ
deriving DecidableEq

/-- Lookup in the class dictionary, embedded as an association list in
insertion order. -/
def lookupClass : List (String × SeatInfo) → String → Option SeatInfo
  | [], _ => none
  | p :: acc, c => if p.1 = c then some p.2 else lookupClass acc c

/-- Wagons of the trip's train (`self.train.wagons`). -/
def trainWagons (wagons : List Wagon) (trip : Trip) : List Wagon :=
  wagons.filter (fun w => w.trainId = trip.trainId)

/-- Tickets of the trip (`self.tickets`). -/
def tripTickets (tickets : List Ticket) (trip : Trip) : List Ticket :=
  tickets.filter (fun t => t.trip.id = trip.id)

/-- Update of one dictionary entry: add `n` seats to the total of the
entry for class `k` (`wagon_classes[class_name]["total_seats"] += ...`). -/
def bumpTotal (k : String) (n : Nat) (p : String × SeatInfo) :
    String × SeatInfo :=
  if p.1 = k then
    (p.1, { p.2 with total_seats := p.2.total_seats + n })
  else p

/-- Update of one dictionary entry: count one more booked seat for class
`k` (`wagon_classes[class_name]["booked_seats"] += 1`). -/
def bumpBooked (k : String) (p : String × SeatInfo) : String × SeatInfo :=
  if p.1 = k then
    (p.1, { p.2 with booked_seats := p.2.booked_seats + 1 })
  else p

/-- Final pass of `get_available_seats_by_class`: set
`available = total - booked` on an entry. -/
def setAvailable (p : String × SeatInfo) : String × SeatInfo :=
  (p.1, { p.2 with
          available_seats :=
            (p.2.total_seats : Int) - (p.2.booked_seats : Int) })

/-- First pass of `get_available_seats_by_class`: a wagon either starts a
dictionary entry for its class (seats counted, fare multiplier taken from
this wagon) or adds its seats to the existing entry. -/
def addWagonClass (acc : List (String × SeatInfo)) (w : Wagon) :
    List (String × SeatInfo) :=
  if lookupClass acc w.type.name = none then
    acc ++ [(w.type.name,
      { total_seats := w.seats
        booked_seats := 0
        available_seats := 0
        fare_multiplier := w.type.fare_multiplier })]
  else
    acc.map (bumpTotal w.type.name w.seats)

/-- Second pass of `get_available_seats_by_class`: a ticket increments the
booked count of its wagon's class, if that class has an entry. -/
def addTicketBooked (acc : List (String × SeatInfo)) (t : Ticket) :
    List (String × SeatInfo) :=
  acc.map (bumpBooked t.wagon.type.name)

/-- Date filter of the ticket query in `get_available_seats_by_class`:
`self.tickets.filter(trip__departure_time__date=travel_date)` keeps a
ticket when its own trip's departure date equals the travel date. -/
def ticketOnDate (d : Int) (t : Ticket) : Bool :=
  dateOf t.trip.departure_time = d

/-- Embedding of `Trip.get_available_seats_by_class`: builds the per-class
dictionary from the train's wagons, counts the trip's date-filtered
tickets into the booked field, and finally sets
`available = total - booked`.  A missing `travel_date` defaults to the
trip's own departure date. -/
def get_available_seats_by_class (wagons : List Wagon) (tickets : List Ticket)
    (trip : Trip) (travel_date : Option Int) : List (String × SeatInfo) :=
  ((((tripTickets tickets trip).filter
      (ticketOnDate (travel_date.getD (dateOf trip.departure_time)))).foldl
    addTicketBooked
    ((trainWagons wagons trip).foldl addWagonClass [])).map setAvailable)

/-- Embedding of `Trip.is_available_for_booking`: with a wagon class given,
looks that class up in the availability dictionary (an unknown class is
unavailable); with no class given, checks whether any class has enough
available seats. -/
def is_available_for_booking (wagons : List Wagon) (tickets : List Ticket)
    (trip : Trip) (passengers_count : Int) (wagon_class : Option String)
    (travel_date : Option Int) : Bool :=
  let abc := get_available_seats_by_class wagons tickets trip travel_date
  match wagon_class with
  | some c =>
    match lookupClass abc c with
    | none => false
    | some info => passengers_count ≤ info.available_seats
  | none =>
    abc.any (fun p => passengers_count ≤ p.2.available_seats)

/-- Sum of the seat counts of the wagons of class `c` in `ws`. -/
def seatSum (ws : List Wagon) (c : String) : Nat :=
  ((ws.filter (fun w => w.type.name = c)).map (fun w => w.seats)).sum

/-- Number of tickets in `ts` whose wagon is of class `c`. -/
def countClass (ts : List Ticket) (c : String) : Nat :=
  (ts.filter (fun t => t.wagon.type.name = c)).length

/-- Specification-side total for one class: the sum of `seats` over the
train's wagons of that class. -/
def classTotal (wagons : List Wagon) (trip : Trip) (c : String) : Nat :=
  seatSum (trainWagons wagons trip) c

/-- Specification-side booked count for one class: the trip's tickets that
pass the travel-date filter and whose wagon's class matches. -/
def classBooked (tickets : List Ticket) (trip : Trip) (d : Int) (c : String) :
    Nat :=
  countClass ((tripTickets tickets trip).filter (ticketOnDate d)) c

/-- Specification-side available count for one class. -/
def classAvailable (wagons : List Wagon) (tickets : List Ticket) (trip : Trip)
    (d : Int) (c : String) : Int :=
  (classTotal wagons trip c : Int) - (classBooked tickets trip d c : Int)

/-- Class names present on the trip's train, with multiplicity. -/
def classNames (wagons : List Wagon) (trip : Trip) : List String :=
  (trainWagons wagons trip).map (fun w => w.type.name)

/-! ## Reachable states of the store -/

/-- States of the store reachable through the system's write operations:
order creation and order cancellation, starting from the empty store.
An operation that returns an error leaves the store as it was (the
transaction rolls back), so only `ok` results produce new states. -/
inductive Reach : DB → Prop where
  | init : Reach ⟨[], []⟩
  | create (u : Nat) (reqs : List TicketReq) (db db' : DB) :
      Reach db → create_order db u reqs = .ok db' → Reach db'
  | cancel (oid : Nat) (user : User) (now : Int) (db db' : DB) :
      Reach db → cancel_order db oid user now = .ok db' → Reach db'

/-- The seat-lock invariant: no two rows of the ticket table share a
(trip, wagon, seat_number) triple. -/
def uniqueSeats (tickets : List Ticket) : Prop :=
  tickets.Pairwise (fun a b => seatTriple a ≠ seatTriple b)

/-! ## Concrete rows used by witnesses and counterexamples -/

/-- Example wagon class with fare multiplier 2.00. -/
def egType : WagonType := ⟨1, "econom", 2⟩

/-- Example wagon of train 1 with 10 seats. -/
def egWagon : Wagon := ⟨1, 1, 1, egType, 10⟩

/-- Example trip of train 1, base price 100.00. -/
def egTrip : Trip := ⟨1, 1, 100000, 100240, 100⟩

/-- Passenger type with no discount and no document requirement. -/
def egAdult : PassengerType := ⟨1, "adult", 0, false, true⟩

/-- Passenger type with a 100 percent discount. -/
def egPromo : PassengerType := ⟨2, "promo", 100, false, true⟩

/-- Valid ticket request for seat 1 of the example wagon. -/
def egReq : TicketReq := ⟨egTrip, egWagon, 1, egAdult, "Ann", ""⟩

/-- Store holding one pending order of user 7 with the one ticket that
`create_order` makes from `egReq`. -/
def egDB1 : DB := ⟨[⟨1, 7, .pending⟩], [mkTicket 1 egReq]⟩

/-- Existing trip of train 1 running over minutes 0 to 20. -/
def exTripA : Trip := ⟨1, 1, 0, 20, 100⟩

/-- Candidate trip on the same train with arrival before departure whose
interval condition nevertheless overlaps `exTripA`. -/
def exCandBad : TripCand := ⟨none, 1, 10, 5, 50⟩

/-- Passenger type with a two-digit (50 percent) discount. -/
def egChild : PassengerType := ⟨3, "child", 50, true, true⟩

/-- The owner of the example order. -/
def wOwner : User := ⟨7, false⟩

/-- A non-staff user who does not own the example order. -/
def wOther : User := ⟨9, false⟩

/-- Store holding one cancelled order of user 7 and no tickets. -/
def egDB2 : DB := ⟨[⟨1, 7, .cancelled⟩], []⟩

/-! # Theorems -/

/-! ## Fare Calculator lemmas -/

theorem digitsAux_small (fuel n : Nat) (hf : 1 ≤ fuel) (hn : n < 10) :
    digitsAux fuel n = 1 := by
  cases fuel with
  | zero => omega
  | succ m => simp [digitsAux, hn]

theorem numDigits_two_digit (d : Nat) (h1 : 10 ≤ d) (h2 : d ≤ 99) :
    numDigits d = 2 := by
  obtain ⟨m, rfl⟩ : ∃ m, d = m + 1 := ⟨d - 1, by omega⟩
  show digitsAux (m + 1) (m + 1) = 2
  rw [digitsAux, if_neg (by omega)]
  have hq2 : (m + 1) / 10 < 10 := Nat.div_lt_of_lt_mul (by omega)
  rw [digitsAux_small m ((m + 1) / 10) (by omega) hq2]

theorem decimalPointFrac_two_digit (d : Nat) (h1 : 10 ≤ d) (h2 : d ≤ 99) :
    decimalPointFrac d = (d : ℚ) / 100 := by
  unfold decimalPointFrac
  rw [numDigits_two_digit d h1 h2]
  norm_num

theorem numDigits_hundred : numDigits 100 = 3 := by decide

/-- C2 (counterexample): at base price 100.00, fare multiplier 2.00 and
discount_percent = 100, the code computes `Decimal("0.100") = 1/10` as the
discount fraction and no rounding, giving 180.00, while the claimed
formula `base x multiplier x (1 - discount/100)` rounded half-up gives 0;
so the computed price differs from the claimed one. -/
theorem compute_price_cex :
    compute_price egTrip egWagon egPromo = 180
    ∧ spec_fare_price egTrip egWagon egPromo = 0
    ∧ compute_price egTrip egWagon egPromo ≠
        spec_fare_price egTrip egWagon egPromo := by
  have h1 : compute_price egTrip egWagon egPromo = 180 := by
    simp [compute_price, egTrip, egWagon, egPromo, egType, decimalPointFrac,
      numDigits_hundred]
    norm_num
  have h2 : spec_fare_price egTrip egWagon egPromo = 0 := by
    simp [spec_fare_price, egTrip, egWagon, egPromo, egType, roundHalfUp2]
    norm_num
  exact ⟨h1, h2, by rw [h1, h2]; norm_num⟩

/-- C2 (amended): the price computed by the system is
`base_price x fare_multiplier` for discount 0 and
`base_price x fare_multiplier x (1 - Decimal("0.<digits of d>"))` for
discount d > 0, with no rounding applied; for two-digit discounts
(10 to 99) the discount factor coincides with the claimed `1 - d/100`. -/
theorem compute_price_spec (trip : Trip) (wagon : Wagon)
    (pt : PassengerType) :
    (pt.discount_percent = 0 →
      compute_price trip wagon pt =
        trip.base_price * wagon.type.fare_multiplier)
    ∧ (0 < pt.discount_percent →
      compute_price trip wagon pt =
        trip.base_price * wagon.type.fare_multiplier *
          (1 - decimalPointFrac pt.discount_percent))
    ∧ (10 ≤ pt.discount_percent → pt.discount_percent ≤ 99 →
      compute_price trip wagon pt =
        trip.base_price * wagon.type.fare_multiplier *
          (1 - (pt.discount_percent : ℚ) / 100)) := by
  refine ⟨fun h => by simp [compute_price, h], fun h => ?_, fun h1 h2 => ?_⟩
  · simp [compute_price, h]
  · rw [show compute_price trip wagon pt =
        trip.base_price * wagon.type.fare_multiplier *
          (1 - decimalPointFrac pt.discount_percent) from by
        simp [compute_price, show 0 < pt.discount_percent by omega],
      decimalPointFrac_two_digit _ h1 h2]

/-- Witness for `compute_price_spec`: a 0-discount passenger pays the full
200.00 and a 50-percent passenger pays 100.00 on the example trip. -/
theorem compute_price_spec_witness :
    compute_price egTrip egWagon egAdult =
      egTrip.base_price * egWagon.type.fare_multiplier
    ∧ compute_price egTrip egWagon egChild =
        egTrip.base_price * egWagon.type.fare_multiplier *
          (1 - (egChild.discount_percent : ℚ) / 100)
    ∧ compute_price egTrip egWagon egAdult = 200
    ∧ compute_price egTrip egWagon egChild = 100 :=
  have hA := (compute_price_spec egTrip egWagon egAdult).1 rfl
  have hC :=
    (compute_price_spec egTrip egWagon egChild).2.2 (by norm_num [egChild])
      (by norm_num [egChild])
  ⟨hA, hC,
    by rw [hA]; norm_num [egTrip, egWagon, egType],
    by rw [hC]; norm_num [egTrip, egWagon, egType, egChild]⟩

/-! ## Trip Scheduler Validator -/

/-- C5 (counterexample): the candidate `exCandBad` has arrival before
departure and also satisfies the overlap condition against `exTripA`, yet
validation reports `TimeOrderError`, not `OverlapError`: the overlap check
is only reached when the time-order check passes. -/
theorem trip_validate_cex :
    (∃ t ∈ [exTripA], overlapsCand t exCandBad)
    ∧ trip_validate [exTripA] exCandBad = some .TimeOrderError
    ∧ trip_validate [exTripA] exCandBad ≠ some .OverlapError := by
  refine ⟨⟨exTripA, by simp, by decide⟩, by decide, by decide⟩

/-- C5 (amended): validation fails with `TimeOrderError` exactly when
arrival_time is at most departure_time; it fails with `OverlapError`
exactly when the times are properly ordered and some other trip of the
same train overlaps; it accepts exactly when the times are properly
ordered and no such overlap exists. -/
theorem trip_validate_spec (trips : List Trip) (c : TripCand) :
    (trip_validate trips c = some .TimeOrderError ↔
      c.arrival_time ≤ c.departure_time)
    ∧ (trip_validate trips c = some .OverlapError ↔
      (c.departure_time < c.arrival_time ∧ ∃ t ∈ trips, overlapsCand t c))
    ∧ (trip_validate trips c = none ↔
      (c.departure_time < c.arrival_time ∧
        ¬∃ t ∈ trips, overlapsCand t c)) := by
  unfold trip_validate
  by_cases h1 : c.arrival_time ≤ c.departure_time
  · rw [if_pos h1]
    have hnlt : ¬c.departure_time < c.arrival_time := not_lt.2 h1
    exact ⟨⟨fun _ => h1, fun _ => rfl⟩,
      ⟨fun h => absurd h (by simp), fun h => absurd h.1 hnlt⟩,
      ⟨fun h => absurd h (by simp), fun h => absurd h.1 hnlt⟩⟩
  · have hlt : c.departure_time < c.arrival_time := not_le.1 h1
    rw [if_neg h1]
    by_cases h2 : ∃ t ∈ trips, overlapsCand t c
    · rw [if_pos h2]
      exact ⟨⟨fun h => absurd h (by simp), fun h => absurd (not_le.2 hlt) (by simp [h])⟩,
        ⟨fun _ => ⟨hlt, h2⟩, fun _ => rfl⟩,
        ⟨fun h => absurd h (by simp), fun h => absurd h2 h.2⟩⟩
    · rw [if_neg h2]
      exact ⟨⟨fun h => absurd h (by simp), fun h => absurd (not_le.2 hlt) (by simp [h])⟩,
        ⟨fun h => absurd h (by simp), fun h => absurd h.2 h2⟩,
        ⟨fun _ => ⟨hlt, h2⟩, fun _ => rfl⟩⟩

/-! ## Ticket.save overwrites the price -/

/-- C9: `Ticket.save` unconditionally recomputes the price, so saving a
ticket stores `compute_price` of its trip, wagon and passenger type
whatever price the caller set, and the ticket rows built during order
creation (whose serializer passes the special-cased child/infant price)
store `compute_price` as well. -/
theorem ticket_save_overwrites_price :
    ∀ (t : Ticket) (p : ℚ),
      ticket_save { t with price := p } = ticket_save t
      ∧ (ticket_save t).price = compute_price t.trip t.wagon t.passenger_type
      ∧ ∀ (oid : Nat) (r : TicketReq),
          (mkTicket oid r).price =
            compute_price r.trip r.wagon r.passenger_type :=
  fun _ _ => ⟨rfl, rfl, fun _ _ => rfl⟩

/-! ## Order Service: cancellation -/

/-- Unfolding of `cancel_order` once the order row has been found. -/
theorem cancel_order_found (db : DB) (oid : Nat) (u : User) (now : Int)
    (order : Order)
    (hfind : db.orders.find? (fun o => o.id = oid) = some order) :
    cancel_order db oid u now =
      if u.is_staff = false ∧ order.userId ≠ u.id then
        .error .Forbidden
      else if order.status ≠ .pending then
        .error .InvalidState
      else if (orderTickets db oid).any
          (fun t => t.trip.departure_time ≤ now + cancellationWindow) then
        .error .CancellationWindowClosed
      else
        .ok { db with
              orders := db.orders.map (fun o =>
                if o.id = oid then { o with status := .cancelled } else o) } := by
  unfold cancel_order
  rw [hfind]

/-- C4: cancellation of a found order fails with `Forbidden` when the
requester is neither staff nor the owner; otherwise it fails with
`InvalidState` when the order is not pending; otherwise it fails with
`CancellationWindowClosed` when some ticket's trip departs within 24
hours of now; otherwise it succeeds and the stored order's status becomes
cancelled.  An error result models the aborted operation: the store, and
in particular the order's status, is unchanged. -/
theorem cancel_order_spec (db : DB) (oid : Nat) (u : User) (now : Int)
    (order : Order)
    (hfind : db.orders.find? (fun o => o.id = oid) = some order) :
    (¬(u.is_staff = true ∨ order.userId = u.id) →
      cancel_order db oid u now = .error .Forbidden)
    ∧ ((u.is_staff = true ∨ order.userId = u.id) →
      order.status ≠ .pending →
      cancel_order db oid u now = .error .InvalidState)
    ∧ ((u.is_staff = true ∨ order.userId = u.id) →
      order.status = .pending →
      (∃ t ∈ orderTickets db oid,
        t.trip.departure_time ≤ now + cancellationWindow) →
      cancel_order db oid u now = .error .CancellationWindowClosed)
    ∧ ((u.is_staff = true ∨ order.userId = u.id) →
      order.status = .pending →
      (∀ t ∈ orderTickets db oid,
        now + cancellationWindow < t.trip.departure_time) →
      cancel_order db oid u now =
        .ok { db with
              orders := db.orders.map (fun o =>
                if o.id = oid then { o with status := .cancelled } else o) }) := by
  have hstep := cancel_order_found db oid u now order hfind
  refine ⟨?_, ?_, ?_, ?_⟩
  · intro h
    have hg : u.is_staff = false ∧ order.userId ≠ u.id := by
      constructor
      · cases hb : u.is_staff
        · rfl
        · exact absurd (Or.inl hb) h
      · exact fun he => h (Or.inr he)
    rw [hstep, if_pos hg]
  · intro hso hst
    have hg : ¬(u.is_staff = false ∧ order.userId ≠ u.id) := by
      rcases hso with h | h
      · intro hc
        rw [h] at hc
        exact absurd hc.1 (by simp)
      · exact fun hc => hc.2 h
    rw [hstep, if_neg hg, if_pos hst]
  · intro hso hst hex
    have hg : ¬(u.is_staff = false ∧ order.userId ≠ u.id) := by
      rcases hso with h | h
      · intro hc
        rw [h] at hc
        exact absurd hc.1 (by simp)
      · exact fun hc => hc.2 h
    have hany : ((orderTickets db oid).any
        (fun t => decide (t.trip.departure_time ≤ now + cancellationWindow)))
          = true := by
      rw [List.any_eq_true]
      obtain ⟨t, ht, hd⟩ := hex
      exact ⟨t, ht, by simpa using hd⟩
    rw [hstep, if_neg hg, if_neg (by simp [hst]), if_pos hany]
  · intro hso hst hall
    have hg : ¬(u.is_staff = false ∧ order.userId ≠ u.id) := by
      rcases hso with h | h
      · intro hc
        rw [h] at hc
        exact absurd hc.1 (by simp)
      · exact fun hc => hc.2 h
    have hany : ¬(((orderTickets db oid).any
        (fun t => decide (t.trip.departure_time ≤ now + cancellationWindow)))
          = true) := by
      simp only [List.any_eq_true, decide_eq_true_eq]
      rintro ⟨t, ht, hd⟩
      exact absurd hd (not_le.2 (hall t ht))
    rw [hstep, if_neg hg, if_neg (by simp [hst]), if_neg hany]

/-- Witness for `cancel_order_spec`: on the example store, a stranger's
cancellation is `Forbidden`, cancelling a cancelled order is
`InvalidState`, cancelling 23.3 hours before departure is
`CancellationWindowClosed`, and cancelling long before departure succeeds
with the order set to cancelled. -/
theorem cancel_order_spec_witness :
    cancel_order egDB1 1 wOther 0 = .error .Forbidden
    ∧ cancel_order egDB2 1 wOwner 0 = .error .InvalidState
    ∧ cancel_order egDB1 1 wOwner 99000 = .error .CancellationWindowClosed
    ∧ cancel_order egDB1 1 wOwner 90000 =
        .ok { egDB1 with
              orders := egDB1.orders.map (fun o =>
                if o.id = 1 then { o with status := .cancelled } else o) } := by
  have hmem : mkTicket 1 egReq ∈ orderTickets egDB1 1 :=
    (show orderTickets egDB1 1 = [mkTicket 1 egReq] from rfl) ▸
      List.mem_singleton.mpr rfl
  refine ⟨(cancel_order_spec egDB1 1 wOther 0 ⟨1, 7, .pending⟩ rfl).1
      (by intro h; rcases h with h | h <;> simp [wOther] at h),
    (cancel_order_spec egDB2 1 wOwner 0 ⟨1, 7, .cancelled⟩ rfl).2.1
      (Or.inr rfl) (by simp),
    (cancel_order_spec egDB1 1 wOwner 99000 ⟨1, 7, .pending⟩ rfl).2.2.1
      (Or.inr rfl) rfl ⟨mkTicket 1 egReq, hmem, by decide⟩,
    (cancel_order_spec egDB1 1 wOwner 90000 ⟨1, 7, .pending⟩ rfl).2.2.2
      (Or.inr rfl) rfl ?_⟩
  intro t ht
  have : t = mkTicket 1 egReq := by
    rw [show orderTickets egDB1 1 = [mkTicket 1 egReq] from rfl] at ht
    exact List.mem_singleton.mp ht
  rw [this]
  decide

/-! ## Ticket store lemmas -/

theorem insertTicket_ok (ts : List Ticket) (t : Ticket) (ts' : List Ticket)
    (h : insertTicket ts t = .ok ts') :
    ts' = ts ++ [t] ∧ ∀ u ∈ ts, seatTriple u ≠ seatTriple t := by
  unfold insertTicket at h
  by_cases hb : (ts.any fun u => decide (seatTriple u = seatTriple t)) = true
  · rw [if_pos hb] at h
    cases h
  · rw [if_neg hb] at h
    injection h with h
    subst h
    refine ⟨rfl, fun u hu he => hb ?_⟩
    rw [List.any_eq_true]
    exact ⟨u, hu, by simpa using he⟩

theorem insertTicket_error (ts : List Ticket) (t : Ticket)
    (h : ∃ u ∈ ts, seatTriple u = seatTriple t) :
    insertTicket ts t = .error .SeatConflict := by
  unfold insertTicket
  rw [if_pos]
  rw [List.any_eq_true]
  obtain ⟨u, hu, he⟩ := h
  exact ⟨u, hu, by simpa using he⟩

theorem insertTickets_ok_eq (batch : List Ticket) :
    ∀ ts ts', insertTickets ts batch = .ok ts' → ts' = ts ++ batch := by
  induction batch with
  | nil =>
    intro ts ts' h
    injection h with h
    subst h
    simp
  | cons t rest ih =>
    intro ts ts' h
    unfold insertTickets at h
    cases hi : insertTicket ts t with
    | error e => rw [hi] at h; cases h
    | ok ts1 =>
      rw [hi] at h
      obtain ⟨rfl, -⟩ := insertTicket_ok ts t ts1 hi
      rw [ih _ _ h, List.append_assoc]
      rfl

theorem uniqueSeats_insertTicket (ts : List Ticket) (t : Ticket)
    (ts' : List Ticket) (hu : uniqueSeats ts)
    (h : insertTicket ts t = .ok ts') : uniqueSeats ts' := by
  obtain ⟨rfl, hne⟩ := insertTicket_ok ts t ts' h
  unfold uniqueSeats at *
  rw [List.pairwise_append]
  refine ⟨hu, List.pairwise_singleton _ _, fun a ha b hb => ?_⟩
  rw [List.mem_singleton] at hb
  subst hb
  exact hne a ha

theorem uniqueSeats_insertTickets (batch : List Ticket) :
    ∀ ts ts', uniqueSeats ts → insertTickets ts batch = .ok ts' →
      uniqueSeats ts' := by
  induction batch with
  | nil =>
    intro ts ts' hu h
    injection h with h
    subst h
    exact hu
  | cons t rest ih =>
    intro ts ts' hu h
    unfold insertTickets at h
    cases hi : insertTicket ts t with
    | error e => rw [hi] at h; cases h
    | ok ts1 =>
      rw [hi] at h
      exact ih ts1 ts' (uniqueSeats_insertTicket ts t ts1 hu hi) h

theorem create_order_ok_eq (db : DB) (u : Nat) (reqs : List TicketReq)
    (db' : DB) (h : create_order db u reqs = .ok db') :
    db'.orders = db.orders ++ [⟨nextOrderId db, u, .pending⟩]
    ∧ insertTickets db.tickets (reqs.map (mkTicket (nextOrderId db)))
        = .ok db'.tickets
    ∧ db'.tickets = db.tickets ++ reqs.map (mkTicket (nextOrderId db)) := by
  unfold create_order at h
  split at h
  · cases h
  · split at h
    · cases h
    · split at h
      · cases h
      · rename_i ts hi
        injection h with h
        subst h
        exact ⟨rfl, hi, insertTickets_ok_eq _ _ _ hi⟩

theorem cancel_order_ok_tickets (db : DB) (oid : Nat) (user : User)
    (now : Int) (db' : DB) (h : cancel_order db oid user now = .ok db') :
    db'.tickets = db.tickets := by
  unfold cancel_order at h
  split at h
  · cases h
  · split at h
    · cases h
    · split at h
      · cases h
      · split at h
        · cases h
        · injection h with h
          subst h
          rfl

theorem reach_uniqueSeats (db : DB) (h : Reach db) :
    uniqueSeats db.tickets := by
  induction h with
  | init => exact List.Pairwise.nil
  | create u reqs db db' hr hok ih =>
    obtain ⟨-, hins, -⟩ := create_order_ok_eq db u reqs db' hok
    exact uniqueSeats_insertTickets _ _ _ ih hins
  | cancel oid user now db db' hr hok ih =>
    rw [cancel_order_ok_tickets db oid user now db' hok]
    exact ih

theorem uniqueSeats_filter_length (ts : List Ticket) (hu : uniqueSeats ts)
    (k : Nat × Nat × Nat) :
    (ts.filter (fun t => seatTriple t = k)).length ≤ 1 := by
  induction ts with
  | nil => simp
  | cons a ts ih =>
    rw [uniqueSeats, List.pairwise_cons] at hu
    obtain ⟨ha, hts⟩ := hu
    rw [List.filter_cons]
    by_cases hk : seatTriple a = k
    · rw [if_pos (by simpa using hk)]
      have hnil : ts.filter (fun t => decide (seatTriple t = k)) = [] := by
        rw [List.filter_eq_nil_iff]
        intro b hb
        simp only [decide_eq_true_eq]
        intro hbk
        exact ha b hb (hk.trans hbk.symm)
      rw [hnil]
      simp
    · rw [if_neg (by simpa using hk)]
      exact ih hts

/-! ## Claim theorems about the store -/

/-- C1: in every reachable state of the store, at most one ticket row
carries any given (trip, wagon, seat_number) triple, and inserting a
ticket for an occupied triple fails with `SeatConflict` instead of adding
a second row. -/
theorem seat_triple_unique (db : DB) (h : Reach db) :
    (∀ k, (db.tickets.filter (fun t => seatTriple t = k)).length ≤ 1)
    ∧ ∀ t : Ticket, (∃ u ∈ db.tickets, seatTriple u = seatTriple t) →
        insertTicket db.tickets t = .error .SeatConflict := by
  have hu := reach_uniqueSeats db h
  exact ⟨fun k => uniqueSeats_filter_length _ hu k,
    fun t ht => insertTicket_error _ _ ht⟩

/-- Witness for `seat_triple_unique` on the reachable store `egDB1`: seat
(1, 1, 1) is held by at most one ticket and a second insert for it is a
`SeatConflict`. -/
theorem seat_triple_unique_witness :
    ((egDB1.tickets.filter (fun t => seatTriple t = (1, 1, 1))).length ≤ 1)
    ∧ insertTicket egDB1.tickets (mkTicket 2 egReq) =
        .error .SeatConflict := by
  have hr : Reach egDB1 :=
    Reach.create 7 [egReq] ⟨[], []⟩ egDB1 Reach.init rfl
  exact ⟨(seat_triple_unique egDB1 hr).1 (1, 1, 1),
    (seat_triple_unique egDB1 hr).2 (mkTicket 2 egReq)
      ⟨mkTicket 1 egReq, List.mem_singleton.mpr rfl, rfl⟩⟩

/-- C3: order creation is all-or-nothing.  An empty request list fails
with `EmptyOrder`; a request list containing any ticket that fails
validation against the current store (seat conflict, wagon/trip mismatch,
invalid seat, missing document) makes the whole call fail, and an error
result leaves the store unchanged (the transaction rolls back); a
successful call appends exactly one pending order and exactly one ticket
row per request. -/
theorem create_order_all_or_nothing (db : DB) (u : Nat)
    (reqs : List TicketReq) :
    (reqs = [] → create_order db u reqs = .error .EmptyOrder)
    ∧ ((∃ r ∈ reqs, validateTicketReq db.tickets r ≠ none) →
        ∃ e, create_order db u reqs = .error e)
    ∧ (∀ db', create_order db u reqs = .ok db' →
        db'.orders = db.orders ++ [⟨nextOrderId db, u, .pending⟩]
        ∧ db'.tickets = db.tickets ++ reqs.map (mkTicket (nextOrderId db))) := by
  refine ⟨fun h => by subst h; rfl, ?_,
    fun db' h =>
      ⟨(create_order_ok_eq db u reqs db' h).1,
       (create_order_ok_eq db u reqs db' h).2.2⟩⟩
  intro hex
  cases hf : reqs.findSome? (validateTicketReq db.tickets) with
  | none =>
    exfalso
    rw [List.findSome?_eq_none_iff] at hf
    obtain ⟨r, hr, hne⟩ := hex
    exact hne (hf r hr)
  | some e =>
    refine ⟨e, ?_⟩
    obtain ⟨r, hr, -⟩ := hex
    cases reqs with
    | nil => exact absurd hr (List.not_mem_nil r)
    | cons a l =>
      unfold create_order
      rw [if_neg (by simp), hf]

/-- Witness for `create_order_all_or_nothing`: the empty order fails with
`EmptyOrder`, re-requesting the already-sold seat of `egDB1` fails, and
the successful creation that produced `egDB1` added one order and one
ticket. -/
theorem create_order_all_or_nothing_witness :
    create_order egDB1 7 [] = .error .EmptyOrder
    ∧ (∃ e, create_order egDB1 8 [egReq] = .error e)
    ∧ (egDB1.orders =
        DB.orders ⟨[], []⟩ ++ [⟨nextOrderId ⟨[], []⟩, 7, .pending⟩]
      ∧ egDB1.tickets =
        DB.tickets ⟨[], []⟩ ++ [egReq].map (mkTicket (nextOrderId ⟨[], []⟩))) :=
  ⟨(create_order_all_or_nothing egDB1 7 []).1 rfl,
   (create_order_all_or_nothing egDB1 8 [egReq]).2.1
     ⟨egReq, List.mem_singleton.mpr rfl, by decide⟩,
   (create_order_all_or_nothing ⟨[], []⟩ 7 [egReq]).2.2 egDB1 rfl⟩

/-! ## Round-trip of order creation -/

theorem le_foldr_max (l : List Nat) (a : Nat) (h : a ∈ l) :
    a ≤ l.foldr max 0 := by
  induction l with
  | nil => exact absurd h (List.not_mem_nil a)
  | cons b l ih =>
    rw [List.foldr_cons]
    rcases List.mem_cons.1 h with rfl | h
    · exact le_max_left _ _
    · exact le_trans (ih h) (le_max_right _ _)

theorem nextOrderId_gt (db : DB) (o : Order) (ho : o ∈ db.orders) :
    o.id < nextOrderId db := by
  have : o.id ≤ (db.orders.map (fun o => o.id)).foldr max 0 :=
    le_foldr_max _ _ (List.mem_map_of_mem _ ho)
  unfold nextOrderId
  omega

/-- C6: a successful order creation from N requests yields exactly the N
new tickets attached to the fresh order (assuming the store's tickets all
reference existing orders), and each of them stores the server-computed
price `compute_price`, whatever price the client or the serializer
supplied. -/
theorem create_order_roundtrip (db : DB) (u : Nat) (reqs : List TicketReq)
    (db' : DB)
    (href : ∀ t ∈ db.tickets, ∃ o ∈ db.orders, t.orderId = o.id)
    (hok : create_order db u reqs = .ok db') :
    reqs ≠ []
    ∧ orderTickets db' (nextOrderId db) = reqs.map (mkTicket (nextOrderId db))
    ∧ (orderTickets db' (nextOrderId db)).length = reqs.length
    ∧ ∀ t ∈ orderTickets db' (nextOrderId db),
        t.price = compute_price t.trip t.wagon t.passenger_type := by
  obtain ⟨-, -, ht⟩ := create_order_ok_eq db u reqs db' hok
  have hne : reqs ≠ [] := by
    rintro rfl
    rw [show create_order db u ([] : List TicketReq) = .error .EmptyOrder
      from rfl] at hok
    cases hok
  have hmain : orderTickets db' (nextOrderId db)
      = reqs.map (mkTicket (nextOrderId db)) := by
    unfold orderTickets
    rw [ht, List.filter_append]
    have h1 : db.tickets.filter
        (fun t => decide (t.orderId = nextOrderId db)) = [] := by
      rw [List.filter_eq_nil_iff]
      intro t htk
      obtain ⟨o, ho', heq⟩ := href t htk
      have := nextOrderId_gt db o ho'
      simp only [decide_eq_true_eq]
      omega
    have h2 : (reqs.map (mkTicket (nextOrderId db))).filter
        (fun t => decide (t.orderId = nextOrderId db))
        = reqs.map (mkTicket (nextOrderId db)) := by
      rw [List.filter_eq_self]
      intro t htm
      obtain ⟨r, -, rfl⟩ := List.mem_map.1 htm
      simp [mkTicket, ticket_save]
    rw [h1, h2, List.nil_append]
  refine ⟨hne, hmain, by rw [hmain, List.length_map], ?_⟩
  intro t htm
  rw [hmain] at htm
  obtain ⟨r, -, rfl⟩ := List.mem_map.1 htm
  rfl

/-- Witness for `create_order_roundtrip`: creating an order from the one
valid request `egReq` in the empty store yields `egDB1`, whose one order
owns exactly one ticket priced by `compute_price`. -/
theorem create_order_roundtrip_witness :
    [egReq] ≠ ([] : List TicketReq)
    ∧ orderTickets egDB1 (nextOrderId ⟨[], []⟩)
        = [egReq].map (mkTicket (nextOrderId ⟨[], []⟩))
    ∧ (orderTickets egDB1 (nextOrderId ⟨[], []⟩)).length = [egReq].length
    ∧ ∀ t ∈ orderTickets egDB1 (nextOrderId ⟨[], []⟩),
        t.price = compute_price t.trip t.wagon t.passenger_type :=
  create_order_roundtrip ⟨[], []⟩ 7 [egReq] egDB1
    (fun t ht => absurd ht (List.not_mem_nil t)) rfl

/-! ## Class dictionary lemmas -/


theorem lookupClass_map_bumpTotal (acc : List (String × SeatInfo))
    (k : String) (n : Nat) (c : String) :
    lookupClass (acc.map (bumpTotal k n)) c =
      if c = k then
        (lookupClass acc c).map
          (fun i => { i with total_seats := i.total_seats + n })
      else lookupClass acc c := by
  induction acc with
  | nil => simp [lookupClass]
  | cons p acc ih =>
    rw [List.map_cons]
    by_cases hpk : p.1 = k
    · by_cases hpc : p.1 = c
      · have hck : c = k := by rw [← hpc, hpk]
        simp [bumpTotal, lookupClass, hpk, hpc, hck]
      · have hck : ¬c = k := fun h => hpc (by rw [hpk, ← h])
        have hkc : ¬k = c := fun h => hpc (hpk.trans h)
        simp [bumpTotal, lookupClass, hpk, hpc, hck, hkc, ih]
    · by_cases hpc : p.1 = c
      · have hck : ¬c = k := fun h => hpk (by rw [hpc, h])
        simp [bumpTotal, lookupClass, hpk, hpc, hck]
      · simp [bumpTotal, lookupClass, hpk, hpc, ih]

theorem lookupClass_map_bumpBooked (acc : List (String × SeatInfo))
    (k : String) (c : String) :
    lookupClass (acc.map (bumpBooked k)) c =
      if c = k then
        (lookupClass acc c).map
          (fun i => { i with booked_seats := i.booked_seats + 1 })
      else lookupClass acc c := by
  induction acc with
  | nil => simp [lookupClass]
  | cons p acc ih =>
    rw [List.map_cons]
    by_cases hpk : p.1 = k
    · by_cases hpc : p.1 = c
      · have hck : c = k := by rw [← hpc, hpk]
        simp [bumpBooked, lookupClass, hpk, hpc, hck]
      · have hck : ¬c = k := fun h => hpc (by rw [hpk, ← h])
        have hkc : ¬k = c := fun h => hpc (hpk.trans h)
        simp [bumpBooked, lookupClass, hpk, hpc, hck, hkc, ih]
    · by_cases hpc : p.1 = c
      · have hck : ¬c = k := fun h => hpk (by rw [hpc, h])
        simp [bumpBooked, lookupClass, hpk, hpc, hck]
      · simp [bumpBooked, lookupClass, hpk, hpc, ih]

theorem lookupClass_map_setAvailable (acc : List (String × SeatInfo))
    (c : String) :
    lookupClass (acc.map setAvailable) c =
      (lookupClass acc c).map
        (fun i => { i with
          available_seats :=
            (i.total_seats : Int) - (i.booked_seats : Int) }) := by
  induction acc with
  | nil => simp [lookupClass]
  | cons p acc ih =>
    by_cases hpc : p.1 = c <;> simp [setAvailable, lookupClass, hpc, ih]

theorem lookupClass_append_single (acc : List (String × SeatInfo))
    (k : String) (v : SeatInfo) (c : String) :
    lookupClass (acc ++ [(k, v)]) c =
      match lookupClass acc c with
      | some i => some i
      | none => if k = c then some v else none := by
  induction acc with
  | nil => simp [lookupClass]
  | cons p acc ih =>
    by_cases hpc : p.1 = c <;> simp [lookupClass, hpc, ih]

theorem lookupClass_eq_none_iff (acc : List (String × SeatInfo))
    (c : String) :
    lookupClass acc c = none ↔ c ∉ acc.map (fun p => p.1) := by
  induction acc with
  | nil => simp [lookupClass]
  | cons p acc ih =>
    by_cases hpc : p.1 = c
    · simp [lookupClass, hpc]
    · have hstep : lookupClass (p :: acc) c = lookupClass acc c := by
        simp [lookupClass, hpc]
      rw [hstep, ih, List.map_cons]
      simp only [List.mem_cons, not_or]
      exact ⟨fun h => ⟨fun hc => hpc hc.symm, h⟩, fun h => h.2⟩

theorem lookupClass_of_mem (acc : List (String × SeatInfo))
    (hnd : (acc.map (fun p => p.1)).Nodup) (p : String × SeatInfo)
    (hp : p ∈ acc) : lookupClass acc p.1 = some p.2 := by
  induction acc with
  | nil => cases hp
  | cons q acc ih =>
    rw [List.map_cons, List.nodup_cons] at hnd
    obtain ⟨hq, hnd⟩ := hnd
    rcases List.mem_cons.1 hp with rfl | hp'
    · simp [lookupClass]
    · have hne : q.1 ≠ p.1 :=
        fun h => hq (h ▸ List.mem_map_of_mem (fun p => p.1) hp')
      simp [lookupClass, hne, ih hnd hp']

theorem mem_of_lookupClass (acc : List (String × SeatInfo)) (c : String)
    (v : SeatInfo) (h : lookupClass acc c = some v) : (c, v) ∈ acc := by
  induction acc with
  | nil => cases h
  | cons p acc ih =>
    by_cases hpc : p.1 = c
    · rw [lookupClass, if_pos hpc] at h
      injection h with h
      have hp : (c, v) = p := by
        rw [← hpc, ← h]
      rw [hp]
      exact List.mem_cons_self p acc
    · rw [lookupClass, if_neg hpc] at h
      exact List.mem_cons_of_mem _ (ih h)

/-! ## Folding the wagons and tickets into the class dictionary -/

theorem lookupClass_addWagonClass (acc : List (String × SeatInfo))
    (w : Wagon) (c : String) :
    lookupClass (addWagonClass acc w) c =
      if w.type.name = c then
        match lookupClass acc c with
        | some i => some { i with total_seats := i.total_seats + w.seats }
        | none =>
          some { total_seats := w.seats, booked_seats := 0,
                 available_seats := 0,
                 fare_multiplier := w.type.fare_multiplier }
      else lookupClass acc c := by
  cases hw : lookupClass acc w.type.name with
  | none =>
    rw [addWagonClass, if_pos hw, lookupClass_append_single]
    by_cases hwc : w.type.name = c
    · subst hwc
      rw [hw]
    · rw [if_neg hwc, if_neg hwc]
      cases lookupClass acc c <;> rfl
  | some i0 =>
    rw [addWagonClass, if_neg (by simp [hw]), lookupClass_map_bumpTotal]
    by_cases hwc : w.type.name = c
    · subst hwc
      rw [if_pos rfl, if_pos rfl, hw]
      rfl
    · rw [if_neg (fun h => hwc h.symm), if_neg hwc]

theorem lookupClass_foldl_addWagonClass (ws : List Wagon) :
    ∀ (acc : List (String × SeatInfo)) (c : String),
    lookupClass (ws.foldl addWagonClass acc) c =
      match lookupClass acc c with
      | some i => some { i with total_seats := i.total_seats + seatSum ws c }
      | none =>
        match ws.find? (fun w => w.type.name = c) with
        | none => none
        | some w =>
          some { total_seats := seatSum ws c, booked_seats := 0,
                 available_seats := 0,
                 fare_multiplier := w.type.fare_multiplier } := by
  induction ws with
  | nil =>
    intro acc c
    rw [List.foldl_nil]
    cases h : lookupClass acc c <;> simp [seatSum]
  | cons w ws ih =>
    intro acc c
    rw [List.foldl_cons, ih (addWagonClass acc w) c, lookupClass_addWagonClass]
    by_cases hwc : w.type.name = c
    · subst hwc
      rw [if_pos rfl]
      have hsum : seatSum (w :: ws) w.type.name
          = w.seats + seatSum ws w.type.name := by
        simp [seatSum, List.filter_cons]
      rw [hsum, List.find?_cons_of_pos _ (by simp)]
      cases h : lookupClass acc w.type.name with
      | some i => simp [Nat.add_assoc]
      | none => simp
    · rw [if_neg hwc]
      have hsum : seatSum (w :: ws) c = seatSum ws c := by
        simp [seatSum, List.filter_cons, hwc]
      rw [hsum, List.find?_cons_of_neg _ (by simp [hwc])]

theorem lookupClass_addTicketBooked (acc : List (String × SeatInfo))
    (t : Ticket) (c : String) :
    lookupClass (addTicketBooked acc t) c =
      if t.wagon.type.name = c then
        (lookupClass acc c).map
          (fun i => { i with booked_seats := i.booked_seats + 1 })
      else lookupClass acc c := by
  rw [addTicketBooked, lookupClass_map_bumpBooked]
  by_cases h : t.wagon.type.name = c
  · subst h
    rw [if_pos rfl]
  · rw [if_neg (fun hh => h hh.symm), if_neg h]

theorem lookupClass_foldl_addTicketBooked (ts : List Ticket) :
    ∀ (acc : List (String × SeatInfo)) (c : String),
    lookupClass (ts.foldl addTicketBooked acc) c =
      (lookupClass acc c).map
        (fun i =>
          { i with booked_seats := i.booked_seats + countClass ts c }) := by
  induction ts with
  | nil =>
    intro acc c
    rw [List.foldl_nil]
    cases h : lookupClass acc c <;> simp [countClass]
  | cons t ts ih =>
    intro acc c
    rw [List.foldl_cons, ih, lookupClass_addTicketBooked]
    by_cases h : t.wagon.type.name = c
    · subst h
      rw [if_pos rfl]
      have hc : countClass (t :: ts) t.wagon.type.name
          = countClass ts t.wagon.type.name + 1 := by
        simp [countClass, List.filter_cons]
      rw [hc]
      cases hl : lookupClass acc t.wagon.type.name with
      | none => rfl
      | some i =>
        have hb : i.booked_seats + 1 + countClass ts t.wagon.type.name
            = i.booked_seats + (countClass ts t.wagon.type.name + 1) := by
          omega
        simp [hb]
    · rw [if_neg h]
      have hc : countClass (t :: ts) c = countClass ts c := by
        simp [countClass, List.filter_cons, h]
      rw [hc]

/-! ## Keys of the class dictionary -/

theorem bumpTotal_key (k : String) (n : Nat) (p : String × SeatInfo) :
    (bumpTotal k n p).1 = p.1 := by
  rw [bumpTotal]
  by_cases h : p.1 = k <;> simp [h]

theorem bumpBooked_key (k : String) (p : String × SeatInfo) :
    (bumpBooked k p).1 = p.1 := by
  rw [bumpBooked]
  by_cases h : p.1 = k <;> simp [h]

theorem addWagonClass_keys_nodup (acc : List (String × SeatInfo)) (w : Wagon)
    (h : (acc.map (fun p => p.1)).Nodup) :
    ((addWagonClass acc w).map (fun p => p.1)).Nodup := by
  rw [addWagonClass]
  by_cases hw : lookupClass acc w.type.name = none
  · rw [if_pos hw, List.map_append, List.nodup_append]
    refine ⟨h, List.nodup_singleton _, fun a ha hb => ?_⟩
    rw [show ([(w.type.name, SeatInfo.mk w.seats 0 0
      w.type.fare_multiplier)].map (fun p => p.1)) = [w.type.name] from rfl,
      List.mem_singleton] at hb
    subst hb
    exact (lookupClass_eq_none_iff acc w.type.name).1 hw ha
  · rw [if_neg hw, List.map_map]
    have hk : List.map ((fun p => p.1) ∘ bumpTotal w.type.name w.seats) acc
        = acc.map (fun p => p.1) :=
      List.map_congr_left (fun p _ => bumpTotal_key w.type.name w.seats p)
    rw [hk]
    exact h

theorem foldl_addWagonClass_keys_nodup (ws : List Wagon) :
    ∀ acc : List (String × SeatInfo), ((acc.map (fun p => p.1)).Nodup) →
      ((ws.foldl addWagonClass acc).map (fun p => p.1)).Nodup := by
  induction ws with
  | nil => intro acc h; exact h
  | cons w ws ih =>
    intro acc h
    rw [List.foldl_cons]
    exact ih _ (addWagonClass_keys_nodup acc w h)

theorem addTicketBooked_keys (acc : List (String × SeatInfo)) (t : Ticket) :
    (addTicketBooked acc t).map (fun p => p.1) = acc.map (fun p => p.1) := by
  rw [addTicketBooked, List.map_map]
  exact List.map_congr_left
    (fun p _ => bumpBooked_key t.wagon.type.name p)

theorem foldl_addTicketBooked_keys (ts : List Ticket) :
    ∀ acc : List (String × SeatInfo),
      ((ts.foldl addTicketBooked acc).map (fun p => p.1))
        = acc.map (fun p => p.1) := by
  induction ts with
  | nil => intro acc; rfl
  | cons t ts ih =>
    intro acc
    rw [List.foldl_cons, ih, addTicketBooked_keys]

theorem setAvailable_key (p : String × SeatInfo) :
    (setAvailable p).1 = p.1 := rfl

theorem gASBC_keys_nodup (wagons : List Wagon) (tickets : List Ticket)
    (trip : Trip) (td : Option Int) :
    ((get_available_seats_by_class wagons tickets trip td).map
      (fun p => p.1)).Nodup := by
  rw [get_available_seats_by_class, List.map_map]
  have hk : List.map ((fun p => p.1) ∘ setAvailable)
      (((tripTickets tickets trip).filter
        (ticketOnDate (td.getD (dateOf trip.departure_time)))).foldl
        addTicketBooked ((trainWagons wagons trip).foldl addWagonClass []))
      = (((tripTickets tickets trip).filter
        (ticketOnDate (td.getD (dateOf trip.departure_time)))).foldl
        addTicketBooked
        ((trainWagons wagons trip).foldl addWagonClass [])).map
        (fun p => p.1) :=
    List.map_congr_left (fun p _ => setAvailable_key p)
  rw [hk, foldl_addTicketBooked_keys]
  exact foldl_addWagonClass_keys_nodup (trainWagons wagons trip) [] (by simp)

/-! ## Characterisation of the availability dictionary -/

theorem lookupClass_gASBC (wagons : List Wagon) (tickets : List Ticket)
    (trip : Trip) (td : Option Int) (c : String) :
    lookupClass (get_available_seats_by_class wagons tickets trip td) c =
      match (trainWagons wagons trip).find? (fun w => w.type.name = c) with
      | none => none
      | some w =>
        some { total_seats := classTotal wagons trip c,
               booked_seats :=
                 classBooked tickets trip
                   (td.getD (dateOf trip.departure_time)) c,
               available_seats :=
                 (classTotal wagons trip c : Int) -
                   (classBooked tickets trip
                     (td.getD (dateOf trip.departure_time)) c : Int),
               fare_multiplier := w.type.fare_multiplier } := by
  rw [get_available_seats_by_class, lookupClass_map_setAvailable,
    lookupClass_foldl_addTicketBooked, lookupClass_foldl_addWagonClass,
    show lookupClass [] c = none from rfl]
  cases hf : (trainWagons wagons trip).find? (fun w => w.type.name = c) with
  | none => rfl
  | some w =>
    rw [classTotal, classBooked]
    simp

/-! ## Claim theorems about availability -/

/-- C7: the availability dictionary has an entry exactly for the classes
of the trip's train, and each entry holds total = sum of the seats of the
class's wagons, booked = number of the trip's date-filtered tickets whose
wagon is of the class, and available = total - booked. -/
theorem available_seats_by_class_spec (wagons : List Wagon)
    (tickets : List Ticket) (trip : Trip) (td : Option Int) :
    (∀ c,
      (lookupClass (get_available_seats_by_class wagons tickets trip td)
        c).isSome ↔ c ∈ classNames wagons trip)
    ∧ ∀ c info,
        lookupClass (get_available_seats_by_class wagons tickets trip td) c
          = some info →
          info.total_seats = classTotal wagons trip c
          ∧ info.booked_seats =
              classBooked tickets trip
                (td.getD (dateOf trip.departure_time)) c
          ∧ info.available_seats =
              (classTotal wagons trip c : Int) -
                (classBooked tickets trip
                  (td.getD (dateOf trip.departure_time)) c : Int) := by
  constructor
  · intro c
    rw [lookupClass_gASBC]
    cases hf : (trainWagons wagons trip).find?
        (fun w => w.type.name = c) with
    | none =>
      rw [List.find?_eq_none] at hf
      simp only [Option.isSome_none, Bool.false_eq_true, false_iff]
      simp only [classNames, List.mem_map]
      rintro ⟨w, hw, hn⟩
      exact absurd (by simpa using hn) (by simpa using hf w hw)
    | some w =>
      constructor
      · intro _
        simp only [classNames, List.mem_map]
        exact ⟨w, List.mem_of_find?_eq_some hf,
          by simpa using List.find?_some hf⟩
      · intro _
        rfl
  · intro c info h
    rw [lookupClass_gASBC] at h
    cases hf : (trainWagons wagons trip).find?
        (fun w => w.type.name = c) with
    | none =>
      rw [hf] at h
      cases h
    | some w =>
      rw [hf] at h
      injection h with h
      subst h
      exact ⟨rfl, rfl, rfl⟩

/-- Witness for `available_seats_by_class_spec`: on the example trip with
one econom wagon of 10 seats and an empty ticket table, the entry for
econom reports 10 total, 0 booked, 10 available. -/
theorem available_seats_by_class_spec_witness :
    ((lookupClass (get_available_seats_by_class [egWagon] [] egTrip none)
        "econom").isSome ↔ "econom" ∈ classNames [egWagon] egTrip)
    ∧ ((SeatInfo.mk 10 0 10 2).total_seats = classTotal [egWagon] egTrip "econom"
      ∧ (SeatInfo.mk 10 0 10 2).booked_seats =
          classBooked [] egTrip
            ((none : Option Int).getD (dateOf egTrip.departure_time)) "econom"
      ∧ (SeatInfo.mk 10 0 10 2).available_seats =
          (classTotal [egWagon] egTrip "econom" : Int) -
            (classBooked [] egTrip
              ((none : Option Int).getD (dateOf egTrip.departure_time))
              "econom" : Int)) :=
  ⟨(available_seats_by_class_spec [egWagon] [] egTrip none).1 "econom",
   (available_seats_by_class_spec [egWagon] [] egTrip none).2 "econom"
     (SeatInfo.mk 10 0 10 2) rfl⟩

/-- C8: `is_available_for_booking` is true exactly when the named class
exists on the trip's train and has at least `passengers_count` available
seats, or, with no class named, when some class of the train does; a
class name that is not on the train yields false. -/
theorem is_available_for_booking_spec (wagons : List Wagon)
    (tickets : List Ticket) (trip : Trip) (n : Int) (cls : Option String)
    (td : Option Int) :
    is_available_for_booking wagons tickets trip n cls td = true ↔
      (match cls with
       | some c =>
         c ∈ classNames wagons trip ∧
           n ≤ classAvailable wagons tickets trip
             (td.getD (dateOf trip.departure_time)) c
       | none =>
         ∃ c ∈ classNames wagons trip,
           n ≤ classAvailable wagons tickets trip
             (td.getD (dateOf trip.departure_time)) c) := by
  cases cls with
  | some c =>
    show (match lookupClass
        (get_available_seats_by_class wagons tickets trip td) c with
      | none => false
      | some info => decide (n ≤ info.available_seats)) = true ↔ _
    rw [lookupClass_gASBC]
    cases hf : (trainWagons wagons trip).find?
        (fun w => w.type.name = c) with
    | none =>
      have hnm : c ∉ classNames wagons trip := by
        rw [List.find?_eq_none] at hf
        simp only [classNames, List.mem_map]
        rintro ⟨w, hw, hn⟩
        exact absurd (by simpa using hn) (by simpa using hf w hw)
      simp [hnm]
    | some w =>
      have hnm : c ∈ classNames wagons trip := by
        simp only [classNames, List.mem_map]
        exact ⟨w, List.mem_of_find?_eq_some hf,
          by simpa using List.find?_some hf⟩
      simp [hnm, classAvailable]
  | none =>
    show ((get_available_seats_by_class wagons tickets trip td).any
      (fun p => decide (n ≤ p.2.available_seats))) = true ↔ _
    rw [List.any_eq_true]
    constructor
    · rintro ⟨p, hp, hle⟩
      have hnd := gASBC_keys_nodup wagons tickets trip td
      have hlk := lookupClass_of_mem _ hnd p hp
      rw [lookupClass_gASBC] at hlk
      cases hf : (trainWagons wagons trip).find?
          (fun w => w.type.name = p.1) with
      | none =>
        rw [hf] at hlk
        cases hlk
      | some w =>
        rw [hf] at hlk
        injection hlk with hlk
        refine ⟨p.1, ?_, ?_⟩
        · simp only [classNames, List.mem_map]
          exact ⟨w, List.mem_of_find?_eq_some hf,
            by simpa using List.find?_some hf⟩
        · have hav : p.2.available_seats =
              classAvailable wagons tickets trip
                (td.getD (dateOf trip.departure_time)) p.1 := by
            rw [← hlk]
            rfl
          rw [← hav]
          exact of_decide_eq_true hle
    · rintro ⟨c, hc, hle⟩
      obtain ⟨w, hw, hn⟩ :
          ∃ w ∈ trainWagons wagons trip, w.type.name = c := by
        simpa only [classNames, List.mem_map] using hc
      obtain ⟨w', hf⟩ : ∃ w',
          (trainWagons wagons trip).find? (fun w => w.type.name = c)
            = some w' := by
        rw [← Option.isSome_iff_exists, List.find?_isSome]
        exact ⟨w, hw, by simpa using hn⟩
      have hlk : lookupClass
          (get_available_seats_by_class wagons tickets trip td) c =
          some (SeatInfo.mk (classTotal wagons trip c)
            (classBooked tickets trip
              (td.getD (dateOf trip.departure_time)) c)
            ((classTotal wagons trip c : Int) -
              (classBooked tickets trip
                (td.getD (dateOf trip.departure_time)) c : Int))
            w'.type.fare_multiplier) := by
        rw [lookupClass_gASBC, hf]
      refine ⟨_, mem_of_lookupClass _ _ _ hlk, ?_⟩
      rw [classAvailable] at hle
      simpa using hle

/-- C10: the travel-date filter of the availability query is
all-or-nothing — with referential integrity of the ticket rows, a class
entry's booked count equals the full per-class ticket count of the trip
when the queried date is the trip's departure date, and 0 for any other
date. -/
theorem date_filter_all_or_nothing (wagons : List Wagon)
    (tickets : List Ticket) (trip : Trip) (d : Int)
    (hint : ∀ t ∈ tickets, t.trip.id = trip.id →
      t.trip.departure_time = trip.departure_time) :
    ∀ c info,
      lookupClass
        (get_available_seats_by_class wagons tickets trip (some d)) c
          = some info →
        info.booked_seats =
          if d = dateOf trip.departure_time
          then countClass (tripTickets tickets trip) c
          else 0 := by
  intro c info h
  rw [lookupClass_gASBC] at h
  cases hf : (trainWagons wagons trip).find? (fun w => w.type.name = c) with
  | none =>
    rw [hf] at h
    cases h
  | some w =>
    rw [hf] at h
    injection h with h
    subst h
    show classBooked tickets trip ((some d).getD (dateOf trip.departure_time))
      c = _
    rw [show (some d).getD (dateOf trip.departure_time) = d from rfl,
      classBooked]
    by_cases hd : d = dateOf trip.departure_time
    · rw [if_pos hd]
      have hfil : (tripTickets tickets trip).filter (ticketOnDate d)
          = tripTickets tickets trip := by
        rw [List.filter_eq_self]
        intro t ht
        obtain ⟨htk, hid⟩ := List.mem_filter.1 ht
        have hdep : t.trip.departure_time = trip.departure_time :=
          hint t htk (by simpa using hid)
        simp [ticketOnDate, hdep, ← hd]
      rw [hfil]
    · rw [if_neg hd]
      have hfil : (tripTickets tickets trip).filter (ticketOnDate d)
          = [] := by
        rw [List.filter_eq_nil_iff]
        intro t ht
        obtain ⟨htk, hid⟩ := List.mem_filter.1 ht
        have hdep : t.trip.departure_time = trip.departure_time :=
          hint t htk (by simpa using hid)
        simp only [ticketOnDate, hdep, decide_eq_true_eq]
        exact fun hh => hd hh.symm
      rw [hfil]
      rfl

/-- Witness for `date_filter_all_or_nothing`: with the one sold ticket of
`egDB1`, querying the trip's own departure date reports 1 booked econom
seat, which is the full ticket count of the trip. -/
theorem date_filter_all_or_nothing_witness :
    (SeatInfo.mk 10 1 9 2).booked_seats =
      if dateOf egTrip.departure_time = dateOf egTrip.departure_time
      then countClass (tripTickets [mkTicket 1 egReq] egTrip) "econom"
      else 0 :=
  date_filter_all_or_nothing [egWagon] [mkTicket 1 egReq] egTrip
    (dateOf egTrip.departure_time)
    (fun t ht _ => by
      rw [List.mem_singleton] at ht
      subst ht
      rfl)
    "econom" (SeatInfo.mk 10 1 9 2) rfl
